import Mathlib

/-!
# alfred-confluence: the result mapper, the output envelope and the process

A shallow embedding of `main.go`.

* Go strings are byte sequences, slices and maps are nil or not, and a struct field left
  out of a literal has its zero value.
* The process is followed from the return of `flag.Parse()` (main.go 69), which a command
  line it rejects never reaches: it is a function from the flag values left by
  `flag.Parse()` and from the behaviour of the external search client (`confluence.NewAPI`, `(*API).Search`) to what
  can be observed of the run: the bytes on standard output and standard error, the calls
  made on the client in order, and the exit status.
* `json.MarshalIndent`, `flag.Usage` and `fmt` are the Go standard library; they are
  embedded as documented, `encoding/json` as of Go 1.24, the release that defines the
  `omitzero` option the struct tags of `main.go` use.
-/

namespace AlfredConfluence

/-! ## Go values -/

/-- A Go string: a sequence of bytes (naturals below 256), not necessarily valid UTF-8. -/
abbrev GoString := List Nat

/-- UTF-8 bytes of one code point. -/
def utf8 (c : Char) : List Nat :=
  let n := c.toNat
  if n < 0x80 then [n]
  else if n < 0x800 then [0xC0 + n / 64, 0x80 + n % 64]
  else if n < 0x10000 then [0xE0 + n / 4096, 0x80 + n / 64 % 64, 0x80 + n % 64]
  else [0xF0 + n / 262144, 0x80 + n / 4096 % 64, 0x80 + n / 64 % 64, 0x80 + n % 64]

/-- The Go string written by a source literal. -/
def gs (s : String) : GoString := s.toList.flatMap utf8

/-- A Go slice: `nil`, or a (possibly empty) backing sequence. -/
inductive GoSlice (α : Type) where
  | nil
  | of (elems : List α)
  deriving DecidableEq, Repr

namespace GoSlice

/-- The elements a `range` loop visits; nothing for `nil`. -/
def toList {α : Type} : GoSlice α → List α
  | .nil => []
  | .of xs => xs

/-- Go `len`. -/
def len {α : Type} (s : GoSlice α) : Nat := s.toList.length

/-- Go `append(s, x)`: the result is never `nil`. -/
def append {α : Type} (s : GoSlice α) (x : α) : GoSlice α := .of (s.toList ++ [x])

/-- Go `s == nil`. -/
def isNil {α : Type} : GoSlice α → Bool
  | .nil => true
  | .of _ => false

end GoSlice

/-- A Go map with string keys: `nil`, or its entries (distinct keys) in the order written. -/
inductive GoMap (β : Type) where
  | nil
  | of (entries : List (GoString × β))
  deriving DecidableEq, Repr

namespace GoMap

/-- The entries of the map; none for `nil`. -/
def entries {β : Type} : GoMap β → List (GoString × β)
  | .nil => []
  | .of es => es

/-- The keys of the map. -/
def keys {β : Type} (m : GoMap β) : List GoString := m.entries.map Prod.fst

/-- Go `m[k]` with the comma-ok form. -/
def get? {β : Type} (m : GoMap β) (k : GoString) : Option β :=
  (m.entries.find? (fun e => e.1 == k)).map Prod.snd

/-- Go `m == nil`. -/
def isNil {β : Type} : GoMap β → Bool
  | .nil => true
  | .of _ => false

end GoMap

/-! ## The types of `main.go` -/

/-- `type Cache struct` (main.go 20-23). -/
structure Cache where
  Seconds : Int := 0
  LooseReload : Bool := false
  deriving DecidableEq, Repr

/-- `type Icon struct` (main.go 45-48); `Type_` is the Go field `Type`. -/
structure Icon where
  Type_ : GoString := []
  Path : GoString := []
  deriving DecidableEq, Repr

/-- `type Mod struct` (main.go 50-54). -/
structure Mod where
  Valid : Bool := false
  Arg : GoString := []
  Subtitle : GoString := []
  deriving DecidableEq, Repr

/-- `type Action struct` (main.go 56-61). -/
structure Action where
  Text : GoString := []
  Url : GoString := []
  File : GoString := []
  Auto : GoString := []
  deriving DecidableEq, Repr

/-- `type ScriptFilterItem struct` (main.go 29-43); a field left out of a literal has its zero
value; `Type_` is the Go field `Type`. -/
structure ScriptFilterItem where
  Uid : GoString := []
  Title : GoString := []
  Subtitle : GoString := []
  Arg : GoSlice GoString := .nil
  Icon : Icon := {}
  Valid : Bool := false
  Match : GoString := []
  Autocomplete : GoString := []
  Type_ : GoString := []
  Mods : GoMap Mod := .nil
  Action : Action := {}
  Text : GoMap GoString := .nil
  QuickLookURL : GoString := []
  deriving DecidableEq, Repr

/-- `type Output struct` (main.go 12-18). -/
structure Output where
  Items : GoSlice ScriptFilterItem := .nil
  Variables : GoMap GoString := .nil
  Rerun : Int := 0
  Cache : Cache := {}
  SkipKnowledge : Bool := false
  deriving DecidableEq, Repr

/-! ## The records of the search client -/

/-- Modelled from the spec: the space of a page record, of which the program reads the key. -/
structure Space where
  Key : GoString := []
  deriving DecidableEq, Repr

/-- Modelled from the spec: the content of a page record, of which the program reads the title
and the containing space. -/
structure Content where
  Title : GoString := []
  Space : Space := {}
  deriving DecidableEq, Repr

/-- Modelled from the spec: one page record of the search client's result (an identifier, a URL
fragment, a title and a containing-space key). -/
structure Results where
  ID : GoString := []
  Content : Content := {}
  URL : GoString := []
  deriving DecidableEq, Repr

/-- Modelled from the spec: the search client's result, an ordered list of page records. -/
structure Search where
  Results : GoSlice Results := .nil
  deriving DecidableEq, Repr

/-- The query of the search client, `confluence.SearchQuery`, with the three fields the literal
of main.go 80-84 sets. -/
structure SearchQuery where
  CQL : GoString := []
  IncludeArchivedSpaces : Bool := false
  Limit : Int := 0
  deriving DecidableEq, Repr

/-! ## The result mapper (main.go 91-118) -/

/-- The URL of a page: `fmt.Sprintf("%s/wiki%s", *baseURL, v.URL)` (main.go 93). -/
def pageUrl (baseURL : GoString) (v : Results) : GoString :=
  baseURL ++ gs "/wiki" ++ v.URL

/-- The item built in the loop body for the record `v` (main.go 93-109). -/
def page (baseURL : GoString) (v : Results) : ScriptFilterItem :=
  { Uid := v.ID
    Title := v.Content.Title
    Subtitle := v.Content.Space.Key
    Arg := .of [pageUrl baseURL v]
    Icon := { Path := gs "icon.png" }
    Valid := true
    Match := v.Content.Title
    Autocomplete := v.Content.Title
    Type_ := gs "default"
    Text := .of [(gs "copy", pageUrl baseURL v), (gs "lagetype", v.Content.Title)]
    QuickLookURL := pageUrl baseURL v }

/-- The loop of main.go 91-111: start from the empty, non-nil slice and append one item for
each record, in order. -/
def buildItems (baseURL : GoString) (results : GoSlice Results) : GoSlice ScriptFilterItem :=
  results.toList.foldl (fun items v => items.append (page baseURL v)) (.of [])

/-- The envelope of main.go 112-118. -/
def buildOutput (baseURL : GoString) (results : GoSlice Results) : Output :=
  { Items := buildItems baseURL results
    Cache := { Seconds := 3600, LooseReload := true } }

/-! ## `encoding/json`: what `json.MarshalIndent` does with a value -/

/-- A Go `error`, as the text its `Error()` method returns. -/
structure GoError where
  msg : GoString
  deriving DecidableEq, Repr

/-- The `json` tag of a struct field: the key, and whether `omitzero` is set. -/
structure FieldTag where
  name : GoString
  omitZero : Bool
  deriving DecidableEq, Repr

/-- A Go value as the encoder sees it through reflection.  `unsupported` stands for the kinds
JSON cannot encode (channel, function, complex), with the name of the type and whether the
value is nil. -/
inductive GoValue where
  | string (s : GoString)
  | int (n : Int)
  | bool (b : Bool)
  | nilSlice
  | slice (elems : List GoValue)
  | nilMap
  | map (entries : List (GoString × GoValue))
  | struct (fields : List (FieldTag × GoValue))
  | unsupported (typeName : GoString) (isNil : Bool)

/-- A JSON document. -/
inductive Json where
  | null
  | bool (b : Bool)
  | number (n : Int)
  | string (s : GoString)
  | array (elems : List Json)
  | object (members : List (GoString × Json))

mutual
/-- The zero test of `omitzero` (`reflect.Value.IsZero`): the empty string, 0, false, a nil slice
or map, a struct whose fields are all zero. -/
def GoValue.isZero : GoValue → Bool
  | .string s => s.isEmpty
  | .int n => n == 0
  | .bool b => !b
  | .nilSlice => true
  | .slice _ => false
  | .nilMap => true
  | .map _ => false
  | .struct fs => GoValue.fieldsZero fs
  | .unsupported _ isNil => isNil
/-- All the fields of a struct are zero. -/
def GoValue.fieldsZero : List (FieldTag × GoValue) → Bool
  | [] => true
  | (_, v) :: rest => v.isZero && GoValue.fieldsZero rest
end

/-- Byte-wise `a < b` on strings, the order in which map keys are written. -/
def bytesLt : GoString → GoString → Bool
  | [], [] => false
  | [], _ :: _ => true
  | _ :: _, [] => false
  | a :: as, b :: bs => a < b || (a == b && bytesLt as bs)

/-- Insert a member into a list of members sorted by key. -/
def insertByKey {β : Type} (kv : GoString × β) : List (GoString × β) → List (GoString × β)
  | [] => [kv]
  | x :: xs => if bytesLt x.1 kv.1 then x :: insertByKey kv xs else kv :: x :: xs

/-- Sort members by key. -/
def sortByKey {β : Type} : List (GoString × β) → List (GoString × β)
  | [] => []
  | x :: xs => insertByKey x (sortByKey xs)

mutual
/-- The document `json.Marshal` builds: a nil slice or map is `null`, a struct is an object of
its fields in declaration order without the `omitzero` fields that are zero, a map is an object
with its keys sorted, and a value of an unsupported kind is an `UnsupportedTypeError`. -/
def marshal : GoValue → Except GoError Json
  | .string s => .ok (.string s)
  | .int n => .ok (.number n)
  | .bool b => .ok (.bool b)
  | .nilSlice => .ok .null
  | .slice xs =>
    match marshalElems xs with
    | .error e => .error e
    | .ok js => .ok (.array js)
  | .nilMap => .ok .null
  | .map es =>
    match marshalEntries es with
    | .error e => .error e
    | .ok kvs => .ok (.object (sortByKey kvs))
  | .struct fs =>
    match marshalFields fs with
    | .error e => .error e
    | .ok kvs => .ok (.object kvs)
  | .unsupported t _ => .error ⟨gs "json: unsupported type: " ++ t⟩
/-- The elements of a slice, in order. -/
def marshalElems : List GoValue → Except GoError (List Json)
  | [] => .ok []
  | x :: xs =>
    match marshal x with
    | .error e => .error e
    | .ok j =>
      match marshalElems xs with
      | .error e => .error e
      | .ok js => .ok (j :: js)
/-- The entries of a map (all of one type, so that any of them fails with the same error). -/
def marshalEntries : List (GoString × GoValue) → Except GoError (List (GoString × Json))
  | [] => .ok []
  | (k, v) :: rest =>
    match marshal v with
    | .error e => .error e
    | .ok j =>
      match marshalEntries rest with
      | .error e => .error e
      | .ok kvs => .ok ((k, j) :: kvs)
/-- The fields of a struct, in order; an `omitzero` field that is zero is left out unencoded. -/
def marshalFields : List (FieldTag × GoValue) → Except GoError (List (GoString × Json))
  | [] => .ok []
  | (tag, v) :: rest =>
    if tag.omitZero && v.isZero then marshalFields rest
    else
      match marshal v with
      | .error e => .error e
      | .ok j =>
        match marshalFields rest with
        | .error e => .error e
        | .ok kvs => .ok ((tag.name, j) :: kvs)
end

/-! ### The text of a document -/

/-- The digit `hex[n]` of the table `"0123456789abcdef"`. -/
def hexDigit (n : Nat) : Nat := if n < 10 then 48 + n else 87 + n

/-- The table `htmlSafeSet`: the ASCII bytes from the space on, apart from the double quote,
the ampersand, the angle brackets and the backslash. -/
def htmlSafe (b : Nat) : Bool :=
  0x20 ≤ b && b < 0x80 && b != 0x22 && b != 0x26 && b != 0x3C && b != 0x3E && b != 0x5C

/-- The escape written for an ASCII byte outside `htmlSafeSet`. -/
def escapeByte (b : Nat) : List Nat :=
  if b = 0x5C ∨ b = 0x22 then [0x5C, b]
  else if b = 0x08 then gs "\\b"
  else if b = 0x0C then gs "\\f"
  else if b = 0x0A then gs "\\n"
  else if b = 0x0D then gs "\\r"
  else if b = 0x09 then gs "\\t"
  else gs "\\u00" ++ [hexDigit (b / 16), hexDigit (b % 16)]

/-- The rune `utf8.RuneError`. -/
def RuneError : Nat := 0xFFFD

/-- The rune at the head of a string and its width in bytes (`utf8.DecodeRuneInString`); a byte
that starts no well-formed encoding decodes as `RuneError` of width 1. -/
def decodeRuneInString (s : GoString) : Nat × Nat :=
  let n := s.length
  if n < 1 then (RuneError, 0) else
  let s0 := s.getD 0 0
  if s0 < 0x80 then (s0, 1) else
  if s0 < 0xC2 ∨ 0xF4 < s0 then (RuneError, 1) else
  let sz := if s0 < 0xE0 then 2 else if s0 < 0xF0 then 3 else 4
  let lo := if s0 = 0xE0 then 0xA0 else if s0 = 0xF0 then 0x90 else 0x80
  let hi := if s0 = 0xED then 0x9F else if s0 = 0xF4 then 0x8F else 0xBF
  if n < sz then (RuneError, 1) else
  let s1 := s.getD 1 0
  if s1 < lo ∨ hi < s1 then (RuneError, 1) else
  if sz ≤ 2 then (s0 % 32 * 64 + s1 % 64, 2) else
  let s2 := s.getD 2 0
  if s2 < 0x80 ∨ 0xBF < s2 then (RuneError, 1) else
  if sz ≤ 3 then (s0 % 16 * 4096 + s1 % 64 * 64 + s2 % 64, 3) else
  let s3 := s.getD 3 0
  if s3 < 0x80 ∨ 0xBF < s3 then (RuneError, 1) else
  (s0 % 8 * 262144 + s1 % 64 * 4096 + s2 % 64 * 64 + s3 % 64, 4)

/-- The loop of `appendString` with HTML escaping on, one byte at a time: `held` counts the
bytes still to pass of the rune decoded last, which are copied when `keep` holds and were
replaced by an escape otherwise. -/
def appendStringLoop : Nat → Bool → GoString → List Nat
  | _, _, [] => []
  | held + 1, keep, b :: rest => (if keep then [b] else []) ++ appendStringLoop held keep rest
  | 0, _, b :: rest =>
    if b < 0x80 then
      (if htmlSafe b then [b] else escapeByte b) ++ appendStringLoop 0 true rest
    else
      let d := decodeRuneInString (b :: rest)
      if d.1 = RuneError ∧ d.2 = 1 then gs "\\ufffd" ++ appendStringLoop 0 true rest
      else if d.1 = 0x2028 ∨ d.1 = 0x2029 then
        gs "\\u202" ++ [hexDigit (d.1 % 16)] ++ appendStringLoop (d.2 - 1) false rest
      else b :: appendStringLoop (d.2 - 1) true rest

/-- A JSON string literal (`appendString`): quoted, with the quote, the backslash, the control
characters, `<`, `>`, `&`, U+2028 and U+2029 escaped and each invalid byte written as the
escape of U+FFFD. -/
def appendString (s : GoString) : List Nat :=
  [0x22] ++ appendStringLoop 0 true s ++ [0x22]

/-- The decimal text of an integer (`strconv.AppendInt` in base 10). -/
def appendInt (n : Int) : List Nat :=
  (if n < 0 then gs "-" else []) ++ (Nat.toDigits 10 n.natAbs).map Char.toNat

/-- A line break followed by the prefix and `depth` copies of the indent. -/
def newline (pre ind : GoString) (depth : Nat) : List Nat :=
  [0x0A] ++ pre ++ (List.replicate depth ind).flatten

mutual
/-- The indented text of a document nested `depth` deep (`json.Indent` on the compact text):
each element or member starts on a line of its own, a colon is followed by a space, and an
empty array or object stays `[]` or `{}`. -/
def Json.indent (pre ind : GoString) (depth : Nat) : Json → List Nat
  | .null => gs "null"
  | .bool b => if b then gs "true" else gs "false"
  | .number n => appendInt n
  | .string s => appendString s
  | .array [] => gs "[]"
  | .array (x :: xs) =>
    gs "[" ++ newline pre ind (depth + 1) ++ x.indent pre ind (depth + 1)
      ++ Json.indentElems pre ind (depth + 1) xs ++ newline pre ind depth ++ gs "]"
  | .object [] => gs "\x7b\x7d"
  | .object (kv :: kvs) =>
    gs "\x7b" ++ newline pre ind (depth + 1) ++ appendString kv.1 ++ gs ": "
      ++ kv.2.indent pre ind (depth + 1)
      ++ Json.indentMembers pre ind (depth + 1) kvs ++ newline pre ind depth ++ gs "\x7d"
/-- The elements of an array after the first. -/
def Json.indentElems (pre ind : GoString) (depth : Nat) : List Json → List Nat
  | [] => []
  | x :: xs =>
    gs "," ++ newline pre ind depth ++ x.indent pre ind depth ++ Json.indentElems pre ind depth xs
/-- The members of an object after the first. -/
def Json.indentMembers (pre ind : GoString) (depth : Nat) : List (GoString × Json) → List Nat
  | [] => []
  | kv :: kvs =>
    gs "," ++ newline pre ind depth ++ appendString kv.1 ++ gs ": " ++ kv.2.indent pre ind depth
      ++ Json.indentMembers pre ind depth kvs
end

/-- `json.MarshalIndent(v, prefix, indent)`. -/
def MarshalIndent (v : GoValue) (pre ind : GoString) : Except GoError (List Nat) :=
  match marshal v with
  | .error e => .error e
  | .ok j => .ok (j.indent pre ind 0)

/-! ### The types of `main.go` as the encoder sees them -/

/-- A `string` field. -/
def reflectString (s : GoString) : GoValue := .string s

/-- A slice, element by element. -/
def GoSlice.reflect {α : Type} (f : α → GoValue) : GoSlice α → GoValue
  | .nil => .nilSlice
  | .of xs => .slice (xs.map f)

/-- A map with string keys, entry by entry. -/
def GoMap.reflect {β : Type} (f : β → GoValue) : GoMap β → GoValue
  | .nil => .nilMap
  | .of es => .map (es.map (fun e => (e.1, f e.2)))

/-- The fields and tags of `Cache` (main.go 20-23). -/
def Cache.reflect (c : Cache) : GoValue :=
  .struct [(⟨gs "seconds", false⟩, .int c.Seconds), (⟨gs "loosereload", false⟩, .bool c.LooseReload)]

/-- The fields and tags of `Icon` (main.go 45-48). -/
def Icon.reflect (i : Icon) : GoValue :=
  .struct [(⟨gs "type", true⟩, .string i.Type_), (⟨gs "path", false⟩, .string i.Path)]

/-- The fields and tags of `Mod` (main.go 50-54). -/
def Mod.reflect (m : Mod) : GoValue :=
  .struct [(⟨gs "valid", false⟩, .bool m.Valid), (⟨gs "arg", false⟩, .string m.Arg),
    (⟨gs "subtitle", false⟩, .string m.Subtitle)]

/-- The fields and tags of `Action` (main.go 56-61). -/
def Action.reflect (a : Action) : GoValue :=
  .struct [(⟨gs "text", false⟩, .string a.Text), (⟨gs "url", true⟩, .string a.Url),
    (⟨gs "file", true⟩, .string a.File), (⟨gs "auto", true⟩, .string a.Auto)]

/-- The fields and tags of `ScriptFilterItem` (main.go 29-43). -/
def ScriptFilterItem.reflect (i : ScriptFilterItem) : GoValue :=
  .struct [(⟨gs "uid", true⟩, .string i.Uid),
    (⟨gs "title", false⟩, .string i.Title),
    (⟨gs "subtitle", true⟩, .string i.Subtitle),
    (⟨gs "arg", true⟩, i.Arg.reflect reflectString),
    (⟨gs "icon", true⟩, i.Icon.reflect),
    (⟨gs "valid", true⟩, .bool i.Valid),
    (⟨gs "match", true⟩, .string i.Match),
    (⟨gs "autocomplete", true⟩, .string i.Autocomplete),
    (⟨gs "type", true⟩, .string i.Type_),
    (⟨gs "mods", true⟩, i.Mods.reflect Mod.reflect),
    (⟨gs "action", true⟩, i.Action.reflect),
    (⟨gs "text", true⟩, i.Text.reflect reflectString),
    (⟨gs "quicklookurl", true⟩, .string i.QuickLookURL)]

/-- The fields and tags of `Output` (main.go 12-18). -/
def Output.reflect (o : Output) : GoValue :=
  .struct [(⟨gs "items", false⟩, o.Items.reflect ScriptFilterItem.reflect),
    (⟨gs "variables", true⟩, o.Variables.reflect reflectString),
    (⟨gs "rerun", true⟩, .int o.Rerun),
    (⟨gs "cache", true⟩, o.Cache.reflect),
    (⟨gs "skipknowledge", true⟩, .bool o.SkipKnowledge)]

/-! ## The process -/

/-- The values of the four flags once `flag.Parse()` has returned (main.go 64-69); a flag that
is not given keeps its default, the empty string. -/
structure Flags where
  token : GoString := []
  baseURL : GoString := []
  username : GoString := []
  query : GoString := []
  deriving DecidableEq, Repr

/-- A call made on the external search client. -/
inductive Call (API : Type) where
  | NewAPI (location username token : GoString)
  | Search (api : API) (query : SearchQuery)
  deriving DecidableEq, Repr

/-- What the process has done so far: the bytes written to the two streams, the calls made on
the search client in order, and the exit status once the process has terminated. -/
structure Process (API : Type) where
  stdout : List Nat := []
  stderr : List Nat := []
  calls : List (Call API) := []
  status : Option Nat := none
  deriving DecidableEq, Repr

/-- The surroundings of a run: the program name `os.Args[0]` and the behaviour of the external
search client, `confluence.NewAPI` and `(*API).Search`, each returning a value or an error. -/
structure Env (API : Type) where
  prog : GoString
  NewAPI : GoString → GoString → GoString → Except GoError API
  Search : API → SearchQuery → Except GoError Search

namespace Process

/-- Write bytes to standard output. -/
def writeOut {API : Type} (p : Process API) (bs : List Nat) : Process API :=
  { p with stdout := p.stdout ++ bs }

/-- Write bytes to standard error. -/
def writeErr {API : Type} (p : Process API) (bs : List Nat) : Process API :=
  { p with stderr := p.stderr ++ bs }

/-- Record a call on the search client. -/
def call {API : Type} (p : Process API) (c : Call API) : Process API :=
  { p with calls := p.calls ++ [c] }

/-- `os.Exit(code)`: the process terminates with this status. -/
def exit {API : Type} (p : Process API) (code : Nat) : Process API :=
  { p with status := some code }

/-- Returning from `main`: a process that has not exited terminates with status 0. -/
def returnFromMain {API : Type} (p : Process API) : Process API :=
  match p.status with
  | some _ => p
  | none => { p with status := some 0 }

/-- The calls to `Search` among the calls made. -/
def searches {API : Type} (p : Process API) : List (Call API) :=
  p.calls.filter (fun c => match c with | .Search _ _ => true | .NewAPI _ _ _ => false)

end Process

/-! ### The usage message of package `flag` -/

/-- A string flag defined with the empty default: its name and its usage text. -/
structure FlagDef where
  name : GoString
  usage : GoString
  deriving DecidableEq, Repr

/-- The flags defined at main.go 64-67, in the order of definition. -/
def flagDefs : List FlagDef :=
  [ ⟨gs "token", gs "API token (required)"⟩,
    ⟨gs "url", gs "Base URL (required)"⟩,
    ⟨gs "username", gs "confluence username (required)"⟩,
    ⟨gs "query", gs "search query to execute (required)"⟩ ]

/-- The entry `PrintDefaults` writes for a string flag whose default is empty and whose usage
has no back-quoted name and no line break: the name and the type on one line, the usage
on the next. -/
def printDefault (f : FlagDef) : List Nat :=
  gs "  -" ++ f.name ++ gs " string" ++ gs "\n    \t" ++ f.usage ++ gs "\n"

/-- `flag.PrintDefaults`: one entry for each flag, in the order of the names. -/
def PrintDefaults (defs : List FlagDef) : List Nat :=
  ((sortByKey (defs.map (fun f => (f.name, f)))).map (fun e => printDefault e.2)).flatten

/-- The usage message: the header `"Usage of %s:\n"` naming the program, then the defaults. -/
def usageText (prog : GoString) : List Nat :=
  gs "Usage of " ++ prog ++ gs ":\n" ++ PrintDefaults flagDefs

/-- `flag.Usage()`: the usage message, on standard error. -/
def flagUsage {API : Type} (env : Env API) (p : Process API) : Process API :=
  p.writeErr (usageText env.prog)

/-! ### `fatal`, `out` and `main` -/

/-- `fatal` (main.go 122-125): `fmt.Fprintf(os.Stderr, "%s: %v", why, err)`, then
`os.Exit(1)`. -/
def fatal {API : Type} (why : GoString) (err : GoError) (p : Process API) : Process API :=
  (p.writeErr (why ++ gs ": " ++ err.msg)).exit 1

/-- The two branches of `out` on what `json.MarshalIndent` returned (main.go 129-132):
`fatal` on an error, otherwise `fmt.Println(string(jsonBytes))`. -/
def outResult {API : Type} (r : Except GoError (List Nat)) (p : Process API) : Process API :=
  match r with
  | .error err => fatal (gs "Error marshalling output to json") err p
  | .ok jsonBytes => p.writeOut (jsonBytes ++ gs "\n")

/-- `out` (main.go 127-133). -/
def out {API : Type} (output : Output) (p : Process API) : Process API :=
  outResult (MarshalIndent output.reflect (gs "") (gs " ")) p

/-- `main` (main.go 63-120) from line 70 on, given the flag values `flag.Parse()` left.  A
command line that `flag.Parse()` does not accept ends the process at line 69 (status 2, or 0
for `-h`) and is no run of this function. -/
def main {API : Type} (env : Env API) (f : Flags) : Process API :=
  let p : Process API := {}
  if f.token = [] ∨ f.baseURL = [] ∨ f.username = [] ∨ f.query = [] then
    (flagUsage env p).exit 1
  else
    let location := f.baseURL ++ gs "/wiki/rest/api"
    let p := p.call (.NewAPI location f.username f.token)
    match env.NewAPI location f.username f.token with
    | .error err => fatal (gs "could not connect to api") err p
    | .ok api =>
      let cql : SearchQuery :=
        { CQL := gs "type=page and title~\"" ++ f.query ++ gs "\""
          IncludeArchivedSpaces := false
          Limit := 25 }
      let p := p.call (.Search api cql)
      match env.Search api cql with
      | .error err => fatal (gs "couldn\x27t fetch results") err p
      | .ok result =>
        let output := buildOutput f.baseURL result.Results
        (out output p).returnFromMain

/-! ## Documents and runs used in the statements -/

/-- The keys of the top-level object of a document, in the order written. -/
def Json.keys : Json → List GoString
  | .object members => members.map Prod.fst
  | _ => []

/-- The document of the `cache` member. -/
def cacheJson : Json :=
  .object [(gs "seconds", .number 3600), (gs "loosereload", .bool true)]

/-- The record of the example: a page titled `Page Title` in the space `ABC`. -/
def examplePage : Results :=
  { ID := gs "98765"
    URL := gs "/display/ABC/Page+Title"
    Content := { Title := gs "Page Title", Space := { Key := gs "ABC" } } }

/-- Four flag values, none empty; the query holds a double quote. -/
def exampleFlags : Flags :=
  { token := gs "s3cr3t"
    baseURL := gs "https://example.atlassian.net"
    username := gs "me@example.com"
    query := gs "Page \"Ti" }

/-- A run in which the client is constructed and the search finds the page of the example. -/
def envFound : Env Unit :=
  { prog := gs "alfred-confluence"
    NewAPI := fun _ _ _ => .ok ()
    Search := fun _ _ => .ok { Results := .of [examplePage] } }

/-- A run in which the client is constructed and the search finds nothing. -/
def envNothingFound : Env Unit :=
  { prog := gs "alfred-confluence"
    NewAPI := fun _ _ _ => .ok ()
    Search := fun _ _ => .ok { Results := .of [] } }

/-- A run in which the client cannot be constructed. -/
def envNoClient : Env Unit :=
  { prog := gs "alfred-confluence"
    NewAPI := fun _ _ _ => .error ⟨gs "invalid URI for request"⟩
    Search := fun _ _ => .ok { Results := .of [examplePage] } }

/-- A run in which the client is constructed and the search fails. -/
def envSearchFails : Env Unit :=
  { prog := gs "alfred-confluence"
    NewAPI := fun _ _ _ => .ok ()
    Search := fun _ _ => .error ⟨gs "authentication failed"⟩ }

set_option maxRecDepth 20000

/-! ## The mapper: one item for each record -/

theorem toList_append_slice {α : Type} (s : GoSlice α) (x : α) :
    (s.append x).toList = s.toList ++ [x] := rfl

/-- The loop appends the mapped records to what is there already. -/
theorem foldl_append_page (baseURL : GoString) (rs : List Results)
    (acc : GoSlice ScriptFilterItem) :
    (rs.foldl (fun items v => items.append (page baseURL v)) acc).toList
      = acc.toList ++ rs.map (page baseURL) := by
  induction rs generalizing acc with
  | nil => simp
  | cons r rs ih => simp [List.foldl_cons, ih, toList_append_slice]

/-- The loop never leaves a nil slice. -/
theorem foldl_append_page_isNil (baseURL : GoString) (rs : List Results)
    (acc : GoSlice ScriptFilterItem) (h : acc.isNil = false) :
    (rs.foldl (fun items v => items.append (page baseURL v)) acc).isNil = false := by
  induction rs generalizing acc with
  | nil => simpa using h
  | cons r rs ih => exact ih _ rfl

theorem buildItems_toList (baseURL : GoString) (results : GoSlice Results) :
    (buildItems baseURL results).toList = results.toList.map (page baseURL) := by
  unfold buildItems
  rw [foldl_append_page]
  rfl

theorem buildItems_isNil (baseURL : GoString) (results : GoSlice Results) :
    (buildItems baseURL results).isNil = false :=
  foldl_append_page_isNil baseURL _ _ rfl

theorem buildItems_eq (baseURL : GoString) (results : GoSlice Results) :
    buildItems baseURL results = .of (results.toList.map (page baseURL)) := by
  have h1 := buildItems_toList baseURL results
  have h2 := buildItems_isNil baseURL results
  cases h : buildItems baseURL results with
  | nil => rw [h] at h2; simp [GoSlice.isNil] at h2
  | of xs => rw [h] at h1; simpa [GoSlice.toList] using h1

/-- C1: for every base URL and every result list, the items of the envelope are as many as the
records, the item at each index is the mapping of the record at that index (no item beyond the
last record), and its uid is the ID of that record. -/
theorem C1_items_one_to_one (baseURL : GoString) (results : GoSlice Results) :
    (buildOutput baseURL results).Items.len = results.len ∧
    (∀ i : Nat, (buildOutput baseURL results).Items.toList[i]?
        = (results.toList[i]?).map (page baseURL)) ∧
    (∀ i : Nat, ((buildOutput baseURL results).Items.toList[i]?).map (fun item => item.Uid)
        = (results.toList[i]?).map (fun r => r.ID)) := by
  have h : (buildOutput baseURL results).Items.toList = results.toList.map (page baseURL) :=
    buildItems_toList baseURL results
  refine ⟨?_, ?_, ?_⟩
  · simp [GoSlice.len, h]
  · intro i
    rw [h, List.getElem?_map]
  · intro i
    rw [h, List.getElem?_map]
    cases results.toList[i]? <;> simp [page]

/-- C2: the URL of the mapped item is the base URL, then `/wiki`, then the URL of the record;
that string is the only element of `arg`, the value of `quicklookurl` and the value of the
`copy` key of `text`; with the base URL and the record of the example it is
`https://example.atlassian.net/wiki/display/ABC/Page+Title`. -/
theorem C2_page_url (baseURL : GoString) (r : Results) :
    pageUrl baseURL r = baseURL ++ gs "/wiki" ++ r.URL ∧
    (page baseURL r).Arg = .of [baseURL ++ gs "/wiki" ++ r.URL] ∧
    (page baseURL r).QuickLookURL = baseURL ++ gs "/wiki" ++ r.URL ∧
    (page baseURL r).Text.get? (gs "copy") = some (baseURL ++ gs "/wiki" ++ r.URL) ∧
    pageUrl (gs "https://example.atlassian.net")
        { URL := gs "/display/ABC/Page+Title"
          Content := { Title := gs "Page Title", Space := { Key := gs "ABC" } } }
      = gs "https://example.atlassian.net/wiki/display/ABC/Page+Title" := by
  refine ⟨rfl, rfl, rfl, ?_, by decide⟩
  simp [page, GoMap.get?, GoMap.entries, pageUrl]

/-- C3: the mapped item copies the title, the space key and the ID of the record, `match` and
`autocomplete` are the title, `text` has the two keys `copy` and `lagetype` and no other, with
the title under `lagetype`, and `valid` is true, whatever the record holds. -/
theorem C3_page_fields (baseURL : GoString) (r : Results) :
    (page baseURL r).Title = r.Content.Title ∧
    (page baseURL r).Subtitle = r.Content.Space.Key ∧
    (page baseURL r).Uid = r.ID ∧
    (page baseURL r).Match = r.Content.Title ∧
    (page baseURL r).Autocomplete = r.Content.Title ∧
    (page baseURL r).Text.keys = [gs "copy", gs "lagetype"] ∧
    (page baseURL r).Text.get? (gs "lagetype") = some r.Content.Title ∧
    (page baseURL r).Valid = true ∧
    (page baseURL r).Valid ≠ false := by
  refine ⟨rfl, rfl, rfl, rfl, rfl, rfl, ?_, rfl, by simp [page]⟩
  have hne : (gs "copy" == gs "lagetype") = false := by decide
  simp [page, GoMap.get?, GoMap.entries, List.find?, hne]


/-! ## Serialisation -/

theorem marshalElems_ok (xs : List GoValue) (h : ∀ v ∈ xs, ∃ j, marshal v = .ok j) :
    ∃ js, marshalElems xs = .ok js ∧ js.length = xs.length := by
  induction xs with
  | nil => exact ⟨[], by simp [marshalElems]⟩
  | cons x xs ih =>
    obtain ⟨j, hj⟩ := h x (List.mem_cons_self _ _)
    obtain ⟨js, hjs, hlen⟩ := ih (fun v hv => h v (List.mem_cons_of_mem _ hv))
    exact ⟨j :: js, by simp [marshalElems, hj, hjs], by simp [hlen]⟩

theorem marshalEntries_ok (es : List (GoString × GoValue))
    (h : ∀ e ∈ es, ∃ j, marshal e.2 = .ok j) :
    ∃ kvs, marshalEntries es = .ok kvs := by
  induction es with
  | nil => exact ⟨[], by simp [marshalEntries]⟩
  | cons e es ih =>
    obtain ⟨k, v⟩ := e
    obtain ⟨j, hj⟩ := h (k, v) (List.mem_cons_self _ _)
    obtain ⟨kvs, hkvs⟩ := ih (fun e he => h e (List.mem_cons_of_mem _ he))
    exact ⟨(k, j) :: kvs, by simp [marshalEntries, hj, hkvs]⟩

theorem marshalFields_ok (fs : List (FieldTag × GoValue))
    (h : ∀ f ∈ fs, ∃ j, marshal f.2 = .ok j) :
    ∃ kvs, marshalFields fs = .ok kvs := by
  induction fs with
  | nil => exact ⟨[], by simp [marshalFields]⟩
  | cons f fs ih =>
    obtain ⟨tag, v⟩ := f
    obtain ⟨j, hj⟩ := h (tag, v) (List.mem_cons_self _ _)
    obtain ⟨kvs, hkvs⟩ := ih (fun f hf => h f (List.mem_cons_of_mem _ hf))
    by_cases hz : (tag.omitZero && v.isZero) = true
    · exact ⟨kvs, by simp [marshalFields, hz, hkvs]⟩
    · exact ⟨(tag.name, j) :: kvs, by simp [marshalFields, hz, hj, hkvs]⟩

theorem marshal_slice_ok (xs : List GoValue) (h : ∀ v ∈ xs, ∃ j, marshal v = .ok j) :
    ∃ j, marshal (.slice xs) = .ok j := by
  obtain ⟨js, hjs, _⟩ := marshalElems_ok xs h
  exact ⟨.array js, by simp [marshal, hjs]⟩

theorem marshal_map_ok (es : List (GoString × GoValue))
    (h : ∀ e ∈ es, ∃ j, marshal e.2 = .ok j) :
    ∃ j, marshal (.map es) = .ok j := by
  obtain ⟨kvs, hkvs⟩ := marshalEntries_ok es h
  exact ⟨.object (sortByKey kvs), by simp [marshal, hkvs]⟩

theorem marshal_struct_ok (fs : List (FieldTag × GoValue))
    (h : ∀ f ∈ fs, ∃ j, marshal f.2 = .ok j) :
    ∃ j, marshal (.struct fs) = .ok j := by
  obtain ⟨kvs, hkvs⟩ := marshalFields_ok fs h
  exact ⟨.object kvs, by simp [marshal, hkvs]⟩

theorem marshal_string_ok (s : GoString) : ∃ j, marshal (.string s) = .ok j :=
  ⟨.string s, by simp [marshal]⟩

theorem marshal_bool_ok (b : Bool) : ∃ j, marshal (.bool b) = .ok j :=
  ⟨.bool b, by simp [marshal]⟩

theorem marshal_int_ok (n : Int) : ∃ j, marshal (.int n) = .ok j :=
  ⟨.number n, by simp [marshal]⟩

theorem marshal_reflect_slice_ok {α : Type} (f : α → GoValue) (s : GoSlice α)
    (h : ∀ a, ∃ j, marshal (f a) = .ok j) : ∃ j, marshal (s.reflect f) = .ok j := by
  cases s with
  | nil => exact ⟨.null, by simp [GoSlice.reflect, marshal]⟩
  | of xs =>
    apply marshal_slice_ok
    intro v hv
    obtain ⟨a, _, rfl⟩ := List.mem_map.mp hv
    exact h a

theorem marshal_reflect_map_ok {β : Type} (f : β → GoValue) (m : GoMap β)
    (h : ∀ b, ∃ j, marshal (f b) = .ok j) : ∃ j, marshal (m.reflect f) = .ok j := by
  cases m with
  | nil => exact ⟨.null, by simp [GoMap.reflect, marshal]⟩
  | of es =>
    apply marshal_map_ok
    intro e he
    obtain ⟨a, _, rfl⟩ := List.mem_map.mp he
    exact h a.2

theorem marshal_icon_ok (i : Icon) : ∃ j, marshal i.reflect = .ok j := by
  apply marshal_struct_ok
  intro f hf
  simp only [List.mem_cons, List.mem_singleton, List.not_mem_nil, or_false] at hf
  rcases hf with rfl | rfl <;> exact marshal_string_ok _

theorem marshal_mod_ok (m : Mod) : ∃ j, marshal m.reflect = .ok j := by
  apply marshal_struct_ok
  intro f hf
  simp only [List.mem_cons, List.mem_singleton, List.not_mem_nil, or_false] at hf
  rcases hf with rfl | rfl | rfl
  · exact marshal_bool_ok _
  · exact marshal_string_ok _
  · exact marshal_string_ok _

theorem marshal_action_ok (a : Action) : ∃ j, marshal a.reflect = .ok j := by
  apply marshal_struct_ok
  intro f hf
  simp only [List.mem_cons, List.mem_singleton, List.not_mem_nil, or_false] at hf
  rcases hf with rfl | rfl | rfl | rfl <;> exact marshal_string_ok _

theorem marshal_cache_ok (c : Cache) : ∃ j, marshal c.reflect = .ok j := by
  apply marshal_struct_ok
  intro f hf
  simp only [List.mem_cons, List.mem_singleton, List.not_mem_nil, or_false] at hf
  rcases hf with rfl | rfl
  · exact marshal_int_ok _
  · exact marshal_bool_ok _

/-- Every item can be encoded. -/
theorem marshal_item_ok (i : ScriptFilterItem) : ∃ j, marshal i.reflect = .ok j := by
  apply marshal_struct_ok
  intro f hf
  simp only [List.mem_cons, List.mem_singleton, List.not_mem_nil, or_false] at hf
  rcases hf with rfl | rfl | rfl | rfl | rfl | rfl | rfl | rfl | rfl | rfl | rfl | rfl | rfl
  · exact marshal_string_ok _
  · exact marshal_string_ok _
  · exact marshal_string_ok _
  · exact marshal_reflect_slice_ok _ _ marshal_string_ok
  · exact marshal_icon_ok _
  · exact marshal_bool_ok _
  · exact marshal_string_ok _
  · exact marshal_string_ok _
  · exact marshal_string_ok _
  · exact marshal_reflect_map_ok _ _ marshal_mod_ok
  · exact marshal_action_ok _
  · exact marshal_reflect_map_ok _ _ marshal_string_ok
  · exact marshal_string_ok _

/-- Every value of type `Output` can be encoded. -/
theorem marshal_output_ok (o : Output) : ∃ j, marshal o.reflect = .ok j := by
  apply marshal_struct_ok
  intro f hf
  simp only [List.mem_cons, List.mem_singleton, List.not_mem_nil, or_false] at hf
  rcases hf with rfl | rfl | rfl | rfl | rfl
  · exact marshal_reflect_slice_ok _ _ marshal_item_ok
  · exact marshal_reflect_map_ok _ _ marshal_string_ok
  · exact marshal_int_ok _
  · exact marshal_cache_ok _
  · exact marshal_bool_ok _

/-- The document of the envelope: the member `items`, an array with one element for each
record, then the member `cache`, and no other member. -/
theorem marshal_buildOutput (baseURL : GoString) (results : GoSlice Results) :
    ∃ js : List Json, js.length = results.len ∧
      marshal (buildOutput baseURL results).reflect
        = .ok (.object [(gs "items", .array js), (gs "cache", cacheJson)]) := by
  obtain ⟨js, hjs, hlen⟩ :=
    marshalElems_ok ((results.toList.map (page baseURL)).map ScriptFilterItem.reflect)
      (fun v hv => by
        obtain ⟨a, _, rfl⟩ := List.mem_map.mp hv
        exact marshal_item_ok a)
  refine ⟨js, by simpa [GoSlice.len] using hlen, ?_⟩
  rw [List.map_map] at hjs
  simp [buildOutput, buildItems_eq, Output.reflect, GoSlice.reflect, GoMap.reflect, Cache.reflect,
    marshal, marshalFields, GoValue.isZero, GoValue.fieldsZero, hjs, cacheJson]

/-- The text of the envelope around the text of the array of items. -/
theorem indent_envelope (js : List Json) :
    (Json.object [(gs "items", .array js), (gs "cache", cacheJson)]).indent (gs "") (gs " ") 0
      = gs "\x7b\n \"items\": " ++ (Json.array js).indent (gs "") (gs " ") 1
        ++ gs ",\n \"cache\": \x7b\n  \"seconds\": 3600,\n  \"loosereload\": true\n \x7d\n\x7d" := by
  have h1 : gs "\x7b" ++ newline (gs "") (gs " ") 1 ++ appendString (gs "items") ++ gs ": "
      = gs "\x7b\n \"items\": " := by decide
  have h2 : Json.indentMembers (gs "") (gs " ") 1 [(gs "cache", cacheJson)]
      ++ newline (gs "") (gs " ") 0 ++ gs "\x7d"
      = gs ",\n \"cache\": \x7b\n  \"seconds\": 3600,\n  \"loosereload\": true\n \x7d\n\x7d" := by
    decide
  rw [← h1, ← h2]
  simp only [Json.indent, List.append_assoc]

theorem MarshalIndent_buildOutput (baseURL : GoString) (results : GoSlice Results) :
    ∃ js : List Json, js.length = results.len ∧
      marshal (buildOutput baseURL results).reflect
        = .ok (.object [(gs "items", .array js), (gs "cache", cacheJson)]) ∧
      MarshalIndent (buildOutput baseURL results).reflect (gs "") (gs " ")
        = .ok (gs "\x7b\n \"items\": " ++ (Json.array js).indent (gs "") (gs " ") 1
          ++ gs ",\n \"cache\": \x7b\n  \"seconds\": 3600,\n  \"loosereload\": true\n \x7d\n\x7d") := by
  obtain ⟨js, hlen, hjs⟩ := marshal_buildOutput baseURL results
  refine ⟨js, hlen, hjs, ?_⟩
  simp only [MarshalIndent, hjs, indent_envelope]

/-! ## The runs of `main` -/

theorem main_missing {API : Type} (env : Env API) (f : Flags)
    (h : f.token = [] ∨ f.baseURL = [] ∨ f.username = [] ∨ f.query = []) :
    main env f = { stderr := usageText env.prog, status := some 1 } := by
  simp [main, h, flagUsage, Process.writeErr, Process.exit]

theorem main_no_client {API : Type} (env : Env API) (f : Flags) (err : GoError)
    (h : ¬ (f.token = [] ∨ f.baseURL = [] ∨ f.username = [] ∨ f.query = []))
    (hapi : env.NewAPI (f.baseURL ++ gs "/wiki/rest/api") f.username f.token = .error err) :
    main env f =
      { stderr := gs "could not connect to api" ++ gs ": " ++ err.msg
        calls := [.NewAPI (f.baseURL ++ gs "/wiki/rest/api") f.username f.token]
        status := some 1 } := by
  simp [main, h, hapi, fatal, Process.writeErr, Process.exit, Process.call]

theorem main_search_fails {API : Type} (env : Env API) (f : Flags) (api : API) (err : GoError)
    (h : ¬ (f.token = [] ∨ f.baseURL = [] ∨ f.username = [] ∨ f.query = []))
    (hapi : env.NewAPI (f.baseURL ++ gs "/wiki/rest/api") f.username f.token = .ok api)
    (hsearch : env.Search api
      { CQL := gs "type=page and title~\"" ++ f.query ++ gs "\""
        IncludeArchivedSpaces := false
        Limit := 25 } = .error err) :
    main env f =
      { stderr := gs "couldn\x27t fetch results" ++ gs ": " ++ err.msg
        calls := [.NewAPI (f.baseURL ++ gs "/wiki/rest/api") f.username f.token,
          .Search api
            { CQL := gs "type=page and title~\"" ++ f.query ++ gs "\""
              IncludeArchivedSpaces := false
              Limit := 25 }]
        status := some 1 } := by
  simp only [List.append_assoc] at hsearch
  simp [main, h, hapi, hsearch, fatal, Process.writeErr, Process.exit, Process.call]

theorem main_found {API : Type} (env : Env API) (f : Flags) (api : API) (result : Search)
    (jsonBytes : List Nat)
    (h : ¬ (f.token = [] ∨ f.baseURL = [] ∨ f.username = [] ∨ f.query = []))
    (hapi : env.NewAPI (f.baseURL ++ gs "/wiki/rest/api") f.username f.token = .ok api)
    (hsearch : env.Search api
      { CQL := gs "type=page and title~\"" ++ f.query ++ gs "\""
        IncludeArchivedSpaces := false
        Limit := 25 } = .ok result)
    (hjson : MarshalIndent (buildOutput f.baseURL result.Results).reflect (gs "") (gs " ")
      = .ok jsonBytes) :
    main env f =
      { stdout := jsonBytes ++ gs "\n"
        calls := [.NewAPI (f.baseURL ++ gs "/wiki/rest/api") f.username f.token,
          .Search api
            { CQL := gs "type=page and title~\"" ++ f.query ++ gs "\""
              IncludeArchivedSpaces := false
              Limit := 25 }]
        status := some 0 } := by
  simp only [List.append_assoc] at hsearch
  simp [main, h, hapi, hsearch, out, outResult, hjson, Process.writeOut, Process.call,
    Process.returnFromMain]

/-! ## The claims on the envelope -/

/-- C4: for every result list the envelope has `cache = {seconds: 3600, loosereload: true}`, and
it is written so in the document; when the result list is empty (nil or not) the items are the
empty slice, not nil, and the document written is the one with `"items": []`. -/
theorem C4_cache_always_and_empty_items (baseURL : GoString) (results : GoSlice Results) :
    (buildOutput baseURL results).Cache = { Seconds := 3600, LooseReload := true } ∧
    (∃ js : List Json, marshal (buildOutput baseURL results).reflect
        = .ok (.object [(gs "items", .array js), (gs "cache", cacheJson)])) ∧
    (results.len = 0 →
      (buildOutput baseURL results).Items = .of [] ∧
      (buildOutput baseURL results).Items.isNil = false ∧
      marshal (buildOutput baseURL results).reflect
        = .ok (.object [(gs "items", .array []), (gs "cache", cacheJson)]) ∧
      MarshalIndent (buildOutput baseURL results).reflect (gs "") (gs " ")
        = .ok (gs "\x7b\n \"items\": [],\n \"cache\": \x7b\n  \"seconds\": 3600,\n  \"loosereload\": true\n \x7d\n\x7d")) := by
  obtain ⟨js, hlen, hjs, htext⟩ := MarshalIndent_buildOutput baseURL results
  refine ⟨rfl, ⟨js, hjs⟩, ?_⟩
  intro h0
  have hnil : js = [] := List.length_eq_zero.mp (hlen.trans h0)
  subst hnil
  have hl : results.toList = [] := List.length_eq_zero.mp h0
  refine ⟨?_, buildItems_isNil baseURL results, hjs, ?_⟩
  · show buildItems baseURL results = .of []
    rw [buildItems_eq, hl]
    rfl
  · rw [htext]
    have : gs "\x7b\n \"items\": " ++ (Json.array []).indent (gs "") (gs " ") 1
        ++ gs ",\n \"cache\": \x7b\n  \"seconds\": 3600,\n  \"loosereload\": true\n \x7d\n\x7d"
        = gs "\x7b\n \"items\": [],\n \"cache\": \x7b\n  \"seconds\": 3600,\n  \"loosereload\": true\n \x7d\n\x7d" := by
      decide
    rw [this]

/-- The empty result list, nil or not, at the base URL of the example. -/
theorem C4_witness :
    MarshalIndent (buildOutput (gs "https://example.atlassian.net") (.of [])).reflect (gs "") (gs " ")
        = .ok (gs "\x7b\n \"items\": [],\n \"cache\": \x7b\n  \"seconds\": 3600,\n  \"loosereload\": true\n \x7d\n\x7d") ∧
    (buildOutput (gs "https://example.atlassian.net") .nil).Items = .of [] :=
  ⟨((C4_cache_always_and_empty_items (gs "https://example.atlassian.net") (.of [])).2.2
      (by decide)).2.2.2,
    ((C4_cache_always_and_empty_items (gs "https://example.atlassian.net") .nil).2.2
      (by decide)).1⟩

/-- C9: the envelope leaves `Variables`, `Rerun` and `SkipKnowledge` at their zero values, the
top-level object of the document has the keys `items` and `cache`, in this order, and no
other, and the text written is the `items` member followed by the `cache` member. -/
theorem C9_only_items_and_cache (baseURL : GoString) (results : GoSlice Results) :
    (buildOutput baseURL results).Variables = .nil ∧
    (buildOutput baseURL results).Rerun = 0 ∧
    (buildOutput baseURL results).SkipKnowledge = false ∧
    (∃ j : Json, marshal (buildOutput baseURL results).reflect = .ok j ∧
      j.keys = [gs "items", gs "cache"] ∧
      gs "variables" ∉ j.keys ∧ gs "rerun" ∉ j.keys ∧ gs "skipknowledge" ∉ j.keys) ∧
    (∃ itemsText : List Nat,
      MarshalIndent (buildOutput baseURL results).reflect (gs "") (gs " ")
        = .ok (gs "\x7b\n \"items\": " ++ itemsText
          ++ gs ",\n \"cache\": \x7b\n  \"seconds\": 3600,\n  \"loosereload\": true\n \x7d\n\x7d")) := by
  obtain ⟨js, _, hjs, htext⟩ := MarshalIndent_buildOutput baseURL results
  refine ⟨rfl, rfl, rfl, ⟨_, hjs, rfl, ?_, ?_, ?_⟩, ⟨_, htext⟩⟩ <;>
    simp only [Json.keys, List.map_cons, List.map_nil] <;> decide

/-- C10: the envelope of every base URL and every result list is encoded without error, so
that `out` prints it; whenever the four flags are non-empty, the client is constructed and the
search returns a result, the process writes the document and a line break to standard output,
nothing to standard error, and terminates with status 0. -/
theorem C10_serialisation_succeeds {API : Type} (env : Env API) (f : Flags) (api : API)
    (result : Search)
    (ht : f.token ≠ []) (hb : f.baseURL ≠ []) (hu : f.username ≠ []) (hq : f.query ≠ [])
    (hapi : env.NewAPI (f.baseURL ++ gs "/wiki/rest/api") f.username f.token = .ok api)
    (hsearch : env.Search api
      { CQL := gs "type=page and title~\"" ++ f.query ++ gs "\""
        IncludeArchivedSpaces := false
        Limit := 25 } = .ok result) :
    (∀ (baseURL : GoString) (results : GoSlice Results) (p : Process API),
      ∃ jsonBytes : List Nat,
        MarshalIndent (buildOutput baseURL results).reflect (gs "") (gs " ") = .ok jsonBytes ∧
        out (buildOutput baseURL results) p = p.writeOut (jsonBytes ++ gs "\n")) ∧
    (∃ jsonBytes : List Nat,
      MarshalIndent (buildOutput f.baseURL result.Results).reflect (gs "") (gs " ")
        = .ok jsonBytes ∧
      (main env f).stdout = jsonBytes ++ gs "\n") ∧
    (main env f).stderr = [] ∧
    (main env f).status = some 0 := by
  have hall : ∀ (baseURL : GoString) (results : GoSlice Results) (p : Process API),
      ∃ jsonBytes : List Nat,
        MarshalIndent (buildOutput baseURL results).reflect (gs "") (gs " ") = .ok jsonBytes ∧
        out (buildOutput baseURL results) p = p.writeOut (jsonBytes ++ gs "\n") := by
    intro baseURL results p
    obtain ⟨js, _, _, htext⟩ := MarshalIndent_buildOutput baseURL results
    exact ⟨_, htext, by simp only [out, outResult, htext]⟩
  obtain ⟨jsonBytes, hjson, _⟩ := hall f.baseURL result.Results {}
  have hne : ¬ (f.token = [] ∨ f.baseURL = [] ∨ f.username = [] ∨ f.query = []) := by
    simp [ht, hb, hu, hq]
  rw [main_found env f api result jsonBytes hne hapi hsearch hjson]
  exact ⟨hall, ⟨jsonBytes, hjson, rfl⟩, rfl, rfl⟩

/-- The run that finds the page of the example ends with status 0. -/
theorem C10_witness :
    (main envFound exampleFlags).stderr = [] ∧ (main envFound exampleFlags).status = some 0 :=
  (C10_serialisation_succeeds envFound exampleFlags () { Results := .of [examplePage] }
    (by decide) (by decide) (by decide) (by decide) rfl rfl).2.2

/-! ## The claims on the process -/

/-- C5: when at least one of the four flag values is empty, the process exits with status 1,
has written nothing to standard output, and has made no call on the search client: neither
the construction of the client nor a search. -/
theorem C5_missing_flag_exits_first {API : Type} (env : Env API) (f : Flags)
    (h : f.token = [] ∨ f.baseURL = [] ∨ f.username = [] ∨ f.query = []) :
    (main env f).status = some 1 ∧ (main env f).stdout = [] ∧ (main env f).calls = [] := by
  rw [main_missing env f h]
  exact ⟨rfl, rfl, rfl⟩

/-- The run with the query left out. -/
theorem C5_witness :
    (main envFound { exampleFlags with query := [] }).status = some 1 ∧
    (main envFound { exampleFlags with query := [] }).stdout = [] ∧
    (main envFound { exampleFlags with query := [] }).calls = [] :=
  C5_missing_flag_exits_first envFound { exampleFlags with query := [] }
    (Or.inr (Or.inr (Or.inr rfl)))

/-- C6: with four non-empty flag values and a client that is constructed, the calls made are
the construction of the client at `url ++ "/wiki/rest/api"` with the username and the token,
then one search, with the query text put between the quotes of `type=page and title~"..."`
unchanged, archived spaces excluded and the limit 25. -/
theorem C6_one_search_call {API : Type} (env : Env API) (f : Flags) (api : API)
    (ht : f.token ≠ []) (hb : f.baseURL ≠ []) (hu : f.username ≠ []) (hq : f.query ≠ [])
    (hapi : env.NewAPI (f.baseURL ++ gs "/wiki/rest/api") f.username f.token = .ok api) :
    (main env f).calls =
      [.NewAPI (f.baseURL ++ gs "/wiki/rest/api") f.username f.token,
        .Search api
          { CQL := gs "type=page and title~\"" ++ f.query ++ gs "\""
            IncludeArchivedSpaces := false
            Limit := 25 }] ∧
    (main env f).searches =
      [.Search api
          { CQL := gs "type=page and title~\"" ++ f.query ++ gs "\""
            IncludeArchivedSpaces := false
            Limit := 25 }] := by
  have hne : ¬ (f.token = [] ∨ f.baseURL = [] ∨ f.username = [] ∨ f.query = []) := by
    simp [ht, hb, hu, hq]
  cases hsearch : env.Search api
      { CQL := gs "type=page and title~\"" ++ f.query ++ gs "\""
        IncludeArchivedSpaces := false
        Limit := 25 } with
  | error err =>
    rw [main_search_fails env f api err hne hapi hsearch]
    exact ⟨rfl, rfl⟩
  | ok result =>
    obtain ⟨js, _, _, htext⟩ := MarshalIndent_buildOutput f.baseURL result.Results
    rw [main_found env f api result _ hne hapi hsearch htext]
    exact ⟨rfl, rfl⟩

/-- The query `Page "Ti` is searched as `type=page and title~"Page "Ti"`. -/
theorem C6_witness :
    (main envFound exampleFlags).calls =
      [.NewAPI (gs "https://example.atlassian.net/wiki/rest/api") (gs "me@example.com")
          (gs "s3cr3t"),
        .Search ()
          { CQL := gs "type=page and title~\"Page \"Ti\""
            IncludeArchivedSpaces := false
            Limit := 25 }] :=
  (C6_one_search_call envFound exampleFlags () (by decide) (by decide) (by decide) (by decide)
    rfl).1

/-- C8: with four non-empty flag values, when the construction of the client fails no search
is made, and when the construction or the search fails nothing is written to standard output
and the exit status is 1; no run makes more than one search. -/
theorem C8_error_stops_the_run {API : Type} (env : Env API) (f : Flags)
    (ht : f.token ≠ []) (hb : f.baseURL ≠ []) (hu : f.username ≠ []) (hq : f.query ≠ []) :
    (∀ err : GoError,
      env.NewAPI (f.baseURL ++ gs "/wiki/rest/api") f.username f.token = .error err →
      (main env f).searches = [] ∧ (main env f).stdout = [] ∧ (main env f).status = some 1) ∧
    (∀ (api : API) (err : GoError),
      env.NewAPI (f.baseURL ++ gs "/wiki/rest/api") f.username f.token = .ok api →
      env.Search api
        { CQL := gs "type=page and title~\"" ++ f.query ++ gs "\""
          IncludeArchivedSpaces := false
          Limit := 25 } = .error err →
      (main env f).searches.length = 1 ∧ (main env f).stdout = [] ∧
        (main env f).status = some 1) ∧
    (main env f).searches.length ≤ 1 := by
  have hne : ¬ (f.token = [] ∨ f.baseURL = [] ∨ f.username = [] ∨ f.query = []) := by
    simp [ht, hb, hu, hq]
  refine ⟨?_, ?_, ?_⟩
  · intro err hapi
    rw [main_no_client env f err hne hapi]
    exact ⟨rfl, rfl, rfl⟩
  · intro api err hapi hsearch
    rw [main_search_fails env f api err hne hapi hsearch]
    exact ⟨rfl, rfl, rfl⟩
  · cases hapi : env.NewAPI (f.baseURL ++ gs "/wiki/rest/api") f.username f.token with
    | error err =>
      rw [main_no_client env f err hne hapi]
      exact Nat.zero_le 1
    | ok api =>
      cases hsearch : env.Search api
          { CQL := gs "type=page and title~\"" ++ f.query ++ gs "\""
            IncludeArchivedSpaces := false
            Limit := 25 } with
      | error err =>
        rw [main_search_fails env f api err hne hapi hsearch]
        exact Nat.le_refl 1
      | ok result =>
        obtain ⟨js, _, _, htext⟩ := MarshalIndent_buildOutput f.baseURL result.Results
        rw [main_found env f api result _ hne hapi hsearch htext]
        exact Nat.le_refl 1

/-- The run whose client cannot be constructed, and the run whose search fails. -/
theorem C8_witness :
    ((main envNoClient exampleFlags).searches = [] ∧ (main envNoClient exampleFlags).stdout = [] ∧
      (main envNoClient exampleFlags).status = some 1) ∧
    ((main envSearchFails exampleFlags).searches.length = 1 ∧
      (main envSearchFails exampleFlags).stdout = [] ∧
      (main envSearchFails exampleFlags).status = some 1) :=
  ⟨(C8_error_stops_the_run envNoClient exampleFlags (by decide) (by decide) (by decide)
      (by decide)).1 ⟨gs "invalid URI for request"⟩ rfl,
    (C8_error_stops_the_run envSearchFails exampleFlags (by decide) (by decide) (by decide)
      (by decide)).2.1 () ⟨gs "authentication failed"⟩ rfl rfl⟩

/-- C7, as the code has it: each of the four failures, a missing flag, a failed construction of
the client, a failed search and a failed encoding, writes to standard error and exits with
status 1; the last three are handled alike, by `fatal`, which writes the context, a colon, a
space and the text of the error, with no line break added; a missing flag is handled
otherwise, by `flag.Usage()`, which writes the usage message, the header and two lines for
each flag. -/
theorem C7_four_failures {API : Type} (env : Env API) (f : Flags) :
    ((f.token = [] ∨ f.baseURL = [] ∨ f.username = [] ∨ f.query = []) →
      (main env f).stderr = gs "Usage of " ++ env.prog ++ gs ":\n"
          ++ gs "  -query string\n    \tsearch query to execute (required)\n"
          ++ gs "  -token string\n    \tAPI token (required)\n"
          ++ gs "  -url string\n    \tBase URL (required)\n"
          ++ gs "  -username string\n    \tconfluence username (required)\n" ∧
      (main env f).status = some 1) ∧
    (¬ (f.token = [] ∨ f.baseURL = [] ∨ f.username = [] ∨ f.query = []) →
      ∀ err : GoError,
        env.NewAPI (f.baseURL ++ gs "/wiki/rest/api") f.username f.token = .error err →
        (main env f).stderr = gs "could not connect to api" ++ gs ": " ++ err.msg ∧
        (main env f).stderr.count 0x0A = err.msg.count 0x0A ∧
        (main env f).status = some 1) ∧
    (¬ (f.token = [] ∨ f.baseURL = [] ∨ f.username = [] ∨ f.query = []) →
      ∀ (api : API) (err : GoError),
        env.NewAPI (f.baseURL ++ gs "/wiki/rest/api") f.username f.token = .ok api →
        env.Search api
          { CQL := gs "type=page and title~\"" ++ f.query ++ gs "\""
            IncludeArchivedSpaces := false
            Limit := 25 } = .error err →
        (main env f).stderr = gs "couldn\x27t fetch results" ++ gs ": " ++ err.msg ∧
        (main env f).stderr.count 0x0A = err.msg.count 0x0A ∧
        (main env f).status = some 1) ∧
    (∀ (err : GoError) (p : Process API),
      (outResult (.error err) p).stderr
          = p.stderr ++ (gs "Error marshalling output to json" ++ gs ": " ++ err.msg) ∧
      (outResult (.error err) p).stdout = p.stdout ∧
      (outResult (.error err) p).status = some 1) := by
  refine ⟨?_, ?_, ?_, ?_⟩
  · intro h
    rw [main_missing env f h]
    refine ⟨?_, rfl⟩
    show usageText env.prog = _
    have hd : PrintDefaults flagDefs
        = gs "  -query string\n    \tsearch query to execute (required)\n"
          ++ gs "  -token string\n    \tAPI token (required)\n"
          ++ gs "  -url string\n    \tBase URL (required)\n"
          ++ gs "  -username string\n    \tconfluence username (required)\n" := by decide
    simp only [usageText, hd, List.append_assoc]
  · intro h err hapi
    rw [main_no_client env f err h hapi]
    refine ⟨rfl, ?_, rfl⟩
    show List.count 0x0A (gs "could not connect to api" ++ gs ": " ++ err.msg) = _
    have h0 : List.count 0x0A (gs "could not connect to api" ++ gs ": ") = 0 := by decide
    rw [List.count_append, h0, Nat.zero_add]
  · intro h api err hapi hsearch
    rw [main_search_fails env f api err h hapi hsearch]
    refine ⟨rfl, ?_, rfl⟩
    show List.count 0x0A (gs "couldn\x27t fetch results" ++ gs ": " ++ err.msg) = _
    have h0 : List.count 0x0A (gs "couldn\x27t fetch results" ++ gs ": ") = 0 := by decide
    rw [List.count_append, h0, Nat.zero_add]
  · intro err p
    exact ⟨rfl, rfl, rfl⟩

/-- The run with no flag at all, the run whose client cannot be constructed and the run whose
search fails. -/
theorem C7_witness :
    (main envFound {}).status = some 1 ∧
    ((main envNoClient exampleFlags).stderr
        = gs "could not connect to api: invalid URI for request" ∧
      (main envNoClient exampleFlags).stderr.count 0x0A = 0 ∧
      (main envNoClient exampleFlags).status = some 1) ∧
    ((main envSearchFails exampleFlags).stderr
        = gs "couldn\x27t fetch results: authentication failed" ∧
      (main envSearchFails exampleFlags).stderr.count 0x0A = 0 ∧
      (main envSearchFails exampleFlags).status = some 1) :=
  ⟨((C7_four_failures envFound {}).1 (Or.inl rfl)).2,
    (C7_four_failures envNoClient exampleFlags).2.1 (by decide)
      ⟨gs "invalid URI for request"⟩ rfl,
    (C7_four_failures envSearchFails exampleFlags).2.2.1 (by decide) ()
      ⟨gs "authentication failed"⟩ rfl rfl⟩

/-- C7 fails as stated: run with no flag at all, the program exits with status 1 after writing
the usage message to standard error, which has nine lines and nowhere a colon followed by a
space, so that it is not a message of the form `<context>: <error>`. -/
theorem C7_usage_is_not_context_error :
    (main envFound {}).status = some 1 ∧
    (main envFound {}).stderr
      = gs ("Usage of alfred-confluence:\n"
        ++ "  -query string\n    \tsearch query to execute (required)\n"
        ++ "  -token string\n    \tAPI token (required)\n"
        ++ "  -url string\n    \tBase URL (required)\n"
        ++ "  -username string\n    \tconfluence username (required)\n") ∧
    (main envFound {}).stderr.count 0x0A = 9 ∧
    ¬ ∃ why err : GoString, (main envFound {}).stderr = why ++ gs ": " ++ err := by
  have hs : (main envFound {}).stderr
      = gs ("Usage of alfred-confluence:\n"
        ++ "  -query string\n    \tsearch query to execute (required)\n"
        ++ "  -token string\n    \tAPI token (required)\n"
        ++ "  -url string\n    \tBase URL (required)\n"
        ++ "  -username string\n    \tconfluence username (required)\n") := by decide
  have hinf : ¬ (gs ": " <:+: (main envFound {}).stderr) := by
    rw [hs]
    decide
  refine ⟨by decide, hs, ?_, ?_⟩
  · rw [hs]
    decide
  · rintro ⟨why, err, h⟩
    exact hinf ⟨why, err, h.symm⟩

end AlfredConfluence
